import Mathlib

/-!
Verification of the Orchestration & Resilience Core of the Imperium Flow
repository: the dependency scheduler (`src/core/workflow_engine.py`), the
workflow coordinator (`src/core/orchestrator.py`), the priority mailbox
(`src/core/protocol.py`), the circuit breaker (`src/agents/integrationbot.py`)
and the approval gate (`src/board/directors.py`), shallowly embedded in Lean.

Modelling conventions:
* Python dict-based tasks become a `Task` structure (`id`, `agent_type`,
  `dependencies`, with `dependencies` defaulting to `[]` as in
  `task.get("dependencies", [])`).
* Python sets of completed ids become `List Nat` with membership semantics
  (insertion uses `List.insert`, which is a no-op on duplicates).
* Wall-clock instants (`time.time()`, `datetime.now()`) are passed explicitly
  as integers; the embedded code only subtracts and compares instants, so any
  linearly ordered timeline is a faithful model of the float one.
* Stateful collaborators (planner, executors, board, quality gates) are an
  explicit environment of oracles; a call that raises is an `Except.error`,
  and a stateful executor is a function of the task id and of how many times
  that task has already been dispatched.
-/

namespace Imperium

/-! ## Data model: tasks (plan entries consumed by the orchestrator) -/

/-- A plan entry. In the source a task is a dict with keys `id`,
`agent_type` (default `"generic"`) and `dependencies` (default `[]`). -/
structure Task where
  id : Nat
  agent_type : String := "generic"
  dependencies : List Nat := []
  deriving DecidableEq, Repr

/-! ## DependencyScheduler — `src/core/workflow_engine.py` -/

/-- Source `WorkflowEngine.get_ready_tasks` (workflow_engine.py lines 20-34): walk the
task list in order, skip tasks already completed, and keep a task exactly when
every dependency id is in the completed set. Pure: builds a fresh list. -/
def get_ready_tasks (tasks : List Task) (completed : List Nat) : List Task :=
  match tasks with
  | [] => []
  | t :: rest =>
    if t.id ∈ completed then get_ready_tasks rest completed
    else if ∀ d ∈ t.dependencies, d ∈ completed then
      t :: get_ready_tasks rest completed
    else get_ready_tasks rest completed

/-- Source `WorkflowEngine.is_workflow_complete` (workflow_engine.py lines 36-39):
the set of task ids is a subset of the completed set. -/
def is_workflow_complete (tasks : List Task) (completed : List Nat) : Bool :=
  decide (∀ t ∈ tasks, t.id ∈ completed)

/-- The spec's own wording of the scheduler contract (§4.1): "returns, in input
order, every task whose id is not in `completed_ids` and whose dependency ids
are all contained in `completed_ids`". Stated as a filter, to be compared with
the source-derived `get_ready_tasks`. -/
def readySpec (tasks : List Task) (completed : List Nat) : List Task :=
  tasks.filter fun t =>
    decide (t.id ∉ completed ∧ ∀ d ∈ t.dependencies, d ∈ completed)

/-! ## CircuitBreaker — `src/agents/integrationbot.py` lines 15-59 -/

inductive CircuitState where
  | closed
  | open
  | half_open
  deriving DecidableEq, Repr

/-- Source `CircuitBreaker` dataclass (integrationbot.py lines 22-33). Times are
integers supplied by the caller in place of `time.time()`. -/
structure CircuitBreaker where
  service_name : String
  failure_threshold : Nat := 3
  recovery_timeout : Int := 30
  state : CircuitState := .closed
  failure_count : Nat := 0
  last_failure_time : Int := 0
  deriving DecidableEq, Repr

/-- Source `CircuitBreaker.record_failure` (lines 35-41): increment the counter,
stamp the failure time, and open the circuit once the counter reaches the
threshold. `now` stands for the `time.time()` read. -/
def record_failure (cb : CircuitBreaker) (now : Int) : CircuitBreaker :=
  let cb := { cb with
    failure_count := cb.failure_count + 1
    last_failure_time := now }
  if cb.failure_threshold ≤ cb.failure_count then { cb with state := .open }
  else cb

/-- Source `CircuitBreaker.record_success` (lines 42-45): reset the counter and force
the closed state. -/
def record_success (cb : CircuitBreaker) : CircuitBreaker :=
  { cb with failure_count := 0, state := .closed }

/-- Source `CircuitBreaker.can_execute` (lines 47-59): closed admits; open admits and
moves to half-open once `now - last_failure_time >= recovery_timeout`,
otherwise denies; half-open admits. Returns the answer and the (possibly
updated) breaker. -/
def can_execute (cb : CircuitBreaker) (now : Int) : Bool × CircuitBreaker :=
  match cb.state with
  | .closed => (true, cb)
  | .open =>
    if cb.recovery_timeout ≤ now - cb.last_failure_time then
      (true, { cb with state := .half_open })
    else (false, cb)
  | .half_open => (true, cb)

/-- A sequence of `record_failure` calls at the given instants. -/
def record_failures (cb : CircuitBreaker) (times : List Int) : CircuitBreaker :=
  times.foldl record_failure cb

/-- Construction of a breaker as the dataclass does it: name, threshold and
timeout supplied, the remaining fields at their defaults (closed, counter 0). -/
def mkBreaker (nm : String) (thr : Nat) (tmo : Int) : CircuitBreaker :=
  { service_name := nm, failure_threshold := thr, recovery_timeout := tmo }

/-! ## PriorityMailbox — `src/core/protocol.py`

`Priority` values (protocol.py lines 36-41): LOW=1, MEDIUM=2, HIGH=3,
CRITICAL=4; a message is modelled with its numeric priority. The arrival
identity of a message (`message_id`, a uuid) is modelled by a numeric tag
`mid`; the send/receive code never inspects it. `timestamp` and
`ttl_seconds` are the only time-dependent fields and are modelled as
integers, with `datetime.now()` passed explicitly as `now`. -/

/-- Source `ImperiumMessage` (protocol.py lines 44-60), restricted to the fields the
bus logic reads: priority value, receiver tag, creation timestamp and TTL. -/
structure Msg where
  mid : Nat
  receiver : String
  priority : Nat := 2
  timestamp : Int := 0
  ttl_seconds : Int := 3600
  deriving DecidableEq, Repr

/-- Source `ImperiumMessage.is_expired` (protocol.py lines 62-65): elapsed seconds
since the timestamp strictly exceed the TTL. -/
def is_expired (m : Msg) (now : Int) : Bool :=
  decide (m.ttl_seconds < now - m.timestamp)

/-- Source `MessageBus` state (protocol.py lines 90-95): per-recipient queues (a
`defaultdict(list)`, modelled as a total function that is `[]` by default) and
the append-only history. Subscriber callbacks are opaque side effects and are
not part of the observable state modelled here. -/
structure MessageBus where
  queues : String → List Msg
  history : List Msg

def emptyBus : MessageBus := { queues := fun _ => [], history := [] }

/-- Insert a message into a descending-priority list, after every message of
priority greater than or equal to its own. -/
def insertByPriority (m : Msg) : List Msg → List Msg
  | [] => [m]
  | x :: xs =>
    if x.priority < m.priority then m :: x :: xs
    else x :: insertByPriority m xs

/-- The queue resort performed by `queue.sort(key=lambda m:
m.priority.value, reverse=True)` (protocol.py line 115): a stable sort by
priority descending, modelled as stable insertion sort processed in list
order (CPython's sort is stable, also with `reverse=True`). -/
def sortQueue (l : List Msg) : List Msg :=
  l.foldl (fun acc m => insertByPriority m acc) []

/-- Source `MessageBus.send` (protocol.py lines 97-121): append to history; a
CRITICAL (priority 4) message is delivered synchronously to subscribers and
never enters a queue; otherwise the message is appended to its receiver's
queue, which is then re-sorted by priority descending. -/
def send (bus : MessageBus) (m : Msg) : MessageBus :=
  let bus := { bus with history := bus.history ++ [m] }
  if m.priority == 4 then bus
  else
    { bus with queues := fun a =>
        if a = m.receiver then sortQueue (bus.queues m.receiver ++ [m])
        else bus.queues a }

/-- Send a batch of messages in order. -/
def sendAll (bus : MessageBus) (msgs : List Msg) : MessageBus :=
  msgs.foldl send bus

/-- The delivery order the mailbox contract promises: strictly higher
priority first, and ties broken by arrival order (`mid`). -/
def msgOrder (x y : Msg) : Prop :=
  y.priority < x.priority ∨ (y.priority = x.priority ∧ x.mid < y.mid)

/-- Non-increasing priority, the invariant a queue keeps between sends. -/
def prioGE (x y : Msg) : Prop := y.priority ≤ x.priority

/-- Source `MessageBus.receive` (protocol.py lines 123-140): rewrite the recipient's
queue keeping only unexpired messages, then pop and return the head, or
return `none` if the purged queue is empty. -/
def receive (bus : MessageBus) (agent : String) (now : Int) :
    Option Msg × MessageBus :=
  let q := (bus.queues agent).filter fun m => !is_expired m now
  match q with
  | [] =>
    (none, { bus with queues := fun a => if a = agent then [] else bus.queues a })
  | h :: t =>
    (some h, { bus with queues := fun a => if a = agent then t else bus.queues a })

/-- Drain up to `n` messages for one recipient, stopping at the first empty
poll (`receive` is a non-blocking poll). -/
def receiveAll (bus : MessageBus) (agent : String) (now : Int) : Nat → List Msg
  | 0 => []
  | n + 1 =>
    match receive bus agent now with
    | (none, _) => []
    | (some m, bus2) => m :: receiveAll bus2 agent now n

/-- Source `MessageBus.get_queue_depth` (protocol.py lines 154-156). -/
def get_queue_depth (bus : MessageBus) (agent : String) : Nat :=
  (bus.queues agent).length

/-! ## ApprovalGate — `src/board/directors.py` -/

inductive DirectorRole where
  | cto
  | cpo
  | cso
  | coo
  | cxo
  deriving DecidableEq, Repr

inductive RiskLevel where
  | low
  | medium
  | high
  | critical
  deriving DecidableEq, Repr

/-- Source `BoardDecision` (directors.py lines 31-39), without the creation
timestamp, which no board logic reads. -/
structure BoardDecision where
  approved : Bool
  director : DirectorRole
  reason : String
  conditions : List String := []
  risk_level : RiskLevel := .low
  deriving DecidableEq, Repr

/-- Source `WorkflowProposal` (directors.py lines 42-51). Complexity is an `int`. -/
structure WorkflowProposal where
  workflow_type : String
  complexity : Int
  agents_required : List String := []
  estimated_duration_minutes : Int := 0
  touches_external_services : Bool := false
  touches_database : Bool := false
  requires_rollback_plan : Bool := false
  deriving DecidableEq, Repr

/-- Source `BoardOfDirectors._coo_review` (directors.py lines 99-107). -/
def coo_review (_p : WorkflowProposal) : BoardDecision :=
  { approved := true
    director := .coo
    reason := "Low complexity - auto-approved by Operations"
    conditions := []
    risk_level := .low }

/-- Source `BoardOfDirectors._cpo_review` (directors.py lines 109-121). -/
def cpo_review (p : WorkflowProposal) : BoardDecision :=
  let conditions :=
    if 2 < p.agents_required.length then
      ["progress_report_on_completion", "coordination_checkpoint"]
    else ["progress_report_on_completion"]
  { approved := true
    director := .cpo
    reason := "Medium complexity - approved with product oversight"
    conditions := conditions
    risk_level := .medium }

/-- Source `BoardOfDirectors._cto_review` (directors.py lines 123-140). -/
def cto_review (p : WorkflowProposal) : BoardDecision :=
  let conditions := ["daily_checkpoints", "code_review_required"]
  let conditions :=
    if p.touches_external_services then
      conditions ++ ["integration_test_mandatory"]
    else conditions
  let conditions :=
    if p.touches_database then conditions ++ ["migration_rollback_plan"]
    else conditions
  { approved := true
    director := .cto
    reason := "High complexity - approved with technical safeguards"
    conditions := conditions
    risk_level := if p.touches_database then .high else .medium }

/-- Source `BoardOfDirectors._full_board_review` (directors.py lines 142-161). -/
def full_board_review (p : WorkflowProposal) : BoardDecision :=
  let conditions :=
    ["daily_checkpoints", "rollback_plan_mandatory", "security_audit_required",
     "cto_final_sign_off", "post_mortem_on_completion"]
  let conditions :=
    if p.touches_external_services then
      conditions ++ ["penetration_test_before_deploy"]
    else conditions
  { approved := true
    director := .cto
    reason := "Critical complexity - full board approval with maximum safeguards"
    conditions := conditions
    risk_level := .critical }

/-- Source `BoardOfDirectors.review_workflow` routing (directors.py lines 83-90):
complexity at most 3 goes to the COO, at most 6 to the CPO, at most 8 to the
CTO, and anything above to the full board. The decision-history append is an
unobserved side effect here. -/
def review_workflow (p : WorkflowProposal) : BoardDecision :=
  if p.complexity ≤ 3 then coo_review p
  else if p.complexity ≤ 6 then cpo_review p
  else if p.complexity ≤ 8 then cto_review p
  else full_board_review p

/-! ## WorkflowCoordinator — `src/core/orchestrator.py`

The coordinator `ZNOrchestrator.execute_workflow` is embedded as a function
of an explicit environment of collaborator behaviours:

* the planner call `planner.create_plan(goal)` is an `Except` value (it may
  raise);
* an executor dispatch `self._execute_single_task(task)` is
  `env.exec taskId k`, where `k` counts how many times that task has already
  been dispatched in this run (executors are stateful objects); an outcome is
  either a result dict carrying a `status` string or a raised exception;
* the board call and the quality-gate call are `Except` values of the data
  the coordinator reads from them.

Creation/update timestamps and the uuid `workflow_id` are generated data the
control flow never reads; they are not modelled. Every dispatch is recorded
in a trace of `(task id, dispatch index)` pairs so that scheduling claims can
speak about what was and was not dispatched. -/

/-- Outcome of one executor dispatch: a returned result dict (read through
its `status` key) or a raised exception with its text. -/
inductive ExecResult where
  | res (status : String)
  | exc (msg : String)
  deriving DecidableEq, Repr

/-- The coordinator's failure test (orchestrator.py line 146 and line 168):
`isinstance(result, Exception)` or a dict whose `status` is `"failed"`. -/
def isFailureResult (r : ExecResult) : Bool :=
  match r with
  | .res st => st == "failed"
  | .exc _ => true

/-- A value stored in `context.results`: an executor result or a plain
string (the `error` and `Note` entries). -/
inductive RVal where
  | r (x : ExecResult)
  | s (txt : String)
  deriving DecidableEq, Repr

/-- A metadata value: the coordinator stores a count, a string, or a list of
condition strings. -/
inductive MetaVal where
  | nat (n : Nat)
  | str (s : String)
  | strs (l : List String)
  deriving DecidableEq, Repr

/-- Python-dict assignment `d[k] = v` on an insertion-ordered dict: update in
place if the key exists, else append. -/
def setKey {α : Type} : List (String × α) → String → α → List (String × α)
  | [], k, v => [(k, v)]
  | (k', v') :: rest, k, v =>
    if k' = k then (k, v) :: rest else (k', v') :: setKey rest k v

/-- Python-dict read `d.get(k)`. -/
def lookupKey {α : Type} : List (String × α) → String → Option α
  | [], _ => none
  | (k', v') :: rest, k => if k' = k then some v' else lookupKey rest k

inductive WorkflowStatus where
  | pending
  | planning
  | executing
  | quality_check
  | completed
  | failed
  | aborted
  deriving DecidableEq, Repr

/-- The quality-gate report as the coordinator reads it: the `passed` flag
and the `failures` list (orchestrator.py lines 279-283). -/
structure QReport where
  passed : Bool
  failures : List String := []
  deriving DecidableEq, Repr

/-- Source `WorkflowContext` (orchestrator.py lines 34-45), without the generated
uuid and the two timestamps, which the control flow never reads. -/
structure WorkflowContext where
  name : String := ""
  status : WorkflowStatus := .pending
  agents_involved : List String := []
  results : List (String × RVal) := []
  quality_report : Option QReport := none
  metadata : List (String × MetaVal) := []
  deriving DecidableEq, Repr

/-- What the coordinator reads from `board.review_workflow(proposal)`:
approval flag, conditions, director tag and reason
(orchestrator.py lines 308-322). -/
structure BoardReply where
  approved : Bool
  conditions : List String := []
  director : String := ""
  reason : String := ""
  deriving DecidableEq, Repr

/-- Collaborator behaviours for one `execute_workflow` run. -/
structure Env where
  plannerPlan : Except String (List Task)
  exec : Nat → Nat → ExecResult
  board : Except String BoardReply
  quality : Except String QReport

/-- One entry per `_execute_single_task` dispatch: task id and per-task
dispatch index. -/
abbrev Trace := List (Nat × Nat)

/-- The plan selection `tasks = initial_plan or planner.create_plan(goal)`
(orchestrator.py line 113): Python `or` takes the right operand whenever the
left one is falsy, which is the case both for `None` and for an empty list. -/
def choosePlan (initialPlan : Option (List Task))
    (plannerPlan : Except String (List Task)) : Except String (List Task) :=
  match initialPlan with
  | none => plannerPlan
  | some p => if p.isEmpty then plannerPlan else .ok p

/-- Whether line 113 evaluates `planner.create_plan(goal)`: exactly when the
supplied plan is falsy (`None` or the empty list). -/
def plannerConsulted (initialPlan : Option (List Task)) : Bool :=
  match initialPlan with
  | none => true
  | some p => p.isEmpty

/-- Source `_phase_planning` (orchestrator.py lines 204-217): set status
`planning`, record the distinct agent types of the plan and the planned task
count. Python iterates a `set` in unspecified order; the deduplicated list
order is one admissible order. -/
def phase_planning (ctx : WorkflowContext) (tasks : List Task) :
    WorkflowContext :=
  { ctx with
    status := .planning
    agents_involved := (tasks.map Task.agent_type).dedup
    metadata := setKey ctx.metadata "planned_tasks" (.nat tasks.length) }

/-- Source `_phase_completion` (orchestrator.py lines 285-289): unconditionally set
status `completed`. -/
def phase_completion (ctx : WorkflowContext) : WorkflowContext :=
  { ctx with status := .completed }

/-- The key `f"task_{task_id}"` under which a task's result is recorded. -/
def taskKey (tid : Nat) : String := "task_" ++ toString tid

/-- The diagnose-retry sub-loop (orchestrator.py lines 150-175) for one
failed task: up to `attempts` further dispatches; an attempt that raises is
caught, an attempt whose result has status `"failed"` loops again, and the
first non-failure result exits the loop. Returns the fixing result if any,
the updated per-task dispatch count, and the dispatches performed. The
`debugger.analyze_failure` call computes a hint that nothing observable
consumes, so it is not modelled. -/
def retryLoop (env : Env) (tid : Nat) : Nat → Nat → Option ExecResult × Nat × Trace
  | 0, calls => (none, calls, [])
  | attempts + 1, calls =>
    let r := env.exec tid calls
    if isFailureResult r then
      let nxt := retryLoop env tid attempts (calls + 1)
      (nxt.1, nxt.2.1, (tid, calls) :: nxt.2.2)
    else (some r, calls + 1, [(tid, calls)])

/-- Result of processing one batch: either carry on to the next scheduling
tick with updated state, or `return context` out of `execute_workflow`
(orchestrator.py line 180, the retry-exhaustion fail-fast). -/
inductive BatchOut where
  | cont (completed : List Nat) (calls : Nat → Nat) (ctx : WorkflowContext)
      (trace : Trace)
  | ret (ctx : WorkflowContext) (trace : Trace)

/-- The per-task result handling of one batch (orchestrator.py lines
143-184), fed the `zip(ready_tasks, results)` pairs: a non-failure result
marks the task completed and records its result; a failure enters the
3-attempt retry sub-loop, and exhaustion sets status `failed` and returns
from `execute_workflow` at once. -/
def processTasks (env : Env) :
    List (Task × ExecResult) → List Nat → (Nat → Nat) → WorkflowContext →
    Trace → BatchOut
  | [], completed, calls, ctx, trace => .cont completed calls ctx trace
  | (t, r) :: rest, completed, calls, ctx, trace =>
    if isFailureResult r then
      match retryLoop env t.id 3 (calls t.id) with
      | (some nr, c, tr) =>
        processTasks env rest (completed.insert t.id)
          (fun i => if i = t.id then c else calls i)
          { ctx with results := setKey ctx.results (taskKey t.id) (.r nr) }
          (trace ++ tr)
      | (none, _, tr) => .ret { ctx with status := .failed } (trace ++ tr)
    else
      processTasks env rest (completed.insert t.id) calls
        { ctx with results := setKey ctx.results (taskKey t.id) (.r r) }
        trace

/-- How the scheduling loop ended: `finished` covers both the normal exit of
the `while` (task set complete) and the deadlock `break` (orchestrator.py
line 136), after which control falls through to the later phases; `returned`
is the early `return context` of retry exhaustion, which leaves
`execute_workflow` directly. -/
inductive LoopOut where
  | finished (ctx : WorkflowContext) (trace : Trace)
  | returned (ctx : WorkflowContext) (trace : Trace)
  deriving DecidableEq, Repr

/-- The scheduling loop (orchestrator.py lines 128-184). Each tick: exit if
the task set is complete; detect deadlock (no ready task while incomplete),
set status `failed` and `break`; otherwise dispatch the whole ready batch
(fan-out via `asyncio.gather` with `return_exceptions=True`, each task at its
current dispatch index) and process the results. The `fuel` argument bounds
the number of ticks; each non-exiting tick completes at least one task, so
`tasks.length + 1` ticks always suffice (`execLoop_fuel_sufficient`). -/
def execLoop (env : Env) (tasks : List Task) :
    Nat → List Nat → (Nat → Nat) → WorkflowContext → Trace → LoopOut
  | 0, _, _, ctx, trace => .finished ctx trace
  | fuel + 1, completed, calls, ctx, trace =>
    if is_workflow_complete tasks completed then .finished ctx trace
    else
      let ready := get_ready_tasks tasks completed
      if ready.isEmpty then .finished { ctx with status := .failed } trace
      else
        let batch := ready.map fun t => env.exec t.id (calls t.id)
        let calls1 := ready.foldl
          (fun c t => fun i => if i = t.id then c i + 1 else c i) calls
        let trace1 := trace ++ ready.map fun t => (t.id, calls t.id)
        match processTasks env (ready.zip batch) completed calls1 ctx trace1 with
        | .ret c tr => .returned c tr
        | .cont completed2 calls2 ctx2 trace2 =>
          execLoop env tasks fuel completed2 calls2 ctx2 trace2

/-- Phases 3 and 4 (orchestrator.py lines 186-195), applied to the loop's
outcome: an early `return` passes the context through untouched; a normal or
deadlock exit runs the quality phase when gate names were supplied (Python
`if quality_gates:` is false for the empty list) and then the completion
phase. `_phase_quality_check` (lines 263-283) sets status `quality_check`,
calls the gate runner (which may raise), stores the report, and on a
non-passing report sets status `failed`, after which the caller records the
`Note` entry and returns. -/
def finishPhases (env : Env) (qualityGates : List String) :
    LoopOut → Except (String × WorkflowContext × Trace) (WorkflowContext × Trace)
  | .returned c tr => .ok (c, tr)
  | .finished c tr =>
    if qualityGates.isEmpty then .ok (phase_completion c, tr)
    else
      let c1 := { c with status := .quality_check }
      match env.quality with
      | .error e => .error (e, c1, tr)
      | .ok report =>
        if report.passed then
          .ok (phase_completion { c1 with quality_report := some report }, tr)
        else
          .ok ({ c1 with
                  quality_report := some report
                  status := .failed
                  results := setKey c1.results "Note" (.s "Failed Quality Gates") },
               tr)

/-- Phase 2 onwards (orchestrator.py lines 123-195): set status `executing`
and run the scheduling loop from an empty completed set, then the later
phases. -/
def runExecutionPhases (env : Env) (tasks : List Task)
    (qualityGates : List String) (ctx : WorkflowContext) :
    Except (String × WorkflowContext × Trace) (WorkflowContext × Trace) :=
  let ctxE := { ctx with status := .executing }
  finishPhases env qualityGates
    (execLoop env tasks (tasks.length + 1) [] (fun _ => 0) ctxE [])

/-- The body of the top-level `try` of `execute_workflow` (orchestrator.py
lines 110-195). An `Except.error` is an exception reaching the top-level
handler, carrying the exception text and the context (and trace) at the
point it was raised. The board interaction follows
`_request_board_approval` (lines 291-322): on approval the conditions and
director are stashed in metadata; on rejection the reason is stashed and the
caller sets status `aborted` and returns. -/
def executeBody (env : Env) (name : String) (initialPlan : Option (List Task))
    (qualityGates : List String) (requireApproval : Bool) :
    Except (String × WorkflowContext × Trace) (WorkflowContext × Trace) :=
  let ctx0 : WorkflowContext := { name := name }
  match choosePlan initialPlan env.plannerPlan with
  | .error e => .error (e, ctx0, [])
  | .ok tasks =>
    let ctx1 := phase_planning ctx0 tasks
    if requireApproval then
      match env.board with
      | .error e => .error (e, ctx1, [])
      | .ok d =>
        if d.approved then
          let ctx2 := { ctx1 with
            metadata := setKey
              (setKey ctx1.metadata "board_conditions" (.strs d.conditions))
              "board_director" (.str d.director) }
          runExecutionPhases env tasks qualityGates ctx2
        else
          .ok ({ ctx1 with
                  metadata := setKey ctx1.metadata "board_rejection_reason"
                    (.str d.reason)
                  status := .aborted }, [])
    else runExecutionPhases env tasks qualityGates ctx1

/-- Source `execute_workflow` (orchestrator.py lines 87-202): run the body under the
top-level handler; an exception is recorded under the `error` key of the
context's results and forces status `failed` (lines 197-200). Returns the
final context together with the dispatch trace. -/
def execute_workflow (env : Env) (name : String)
    (initialPlan : Option (List Task)) (qualityGates : List String)
    (requireApproval : Bool) : WorkflowContext × Trace :=
  match executeBody env name initialPlan qualityGates requireApproval with
  | .ok (c, tr) => (c, tr)
  | .error (e, c, tr) =>
    ({ c with status := .failed, results := setKey c.results "error" (.s e) }, tr)

/-- Source `abort_workflow` (orchestrator.py lines 328-335) over the
`active_workflows` map (an insertion-ordered dict from workflow id to
context): if the id is present, set that context's status to `aborted` and
answer `true`; otherwise answer `false`. Contexts are never removed from the
map, and the current status is not inspected. -/
def abort_workflow (m : List (String × WorkflowContext)) (wid : String) :
    Bool × List (String × WorkflowContext) :=
  match lookupKey m wid with
  | some c => (true, setKey m wid { c with status := .aborted })
  | none => (false, m)

/-! ## Concrete instances used by counterexamples and witnesses -/

/-- A context that has already reached the terminal status `completed`. -/
def ctxDone : WorkflowContext := { name := "w", status := .completed }

/-- A concrete complexity-10 proposal touching external services. -/
def pC9 : WorkflowProposal :=
  { workflow_type := "x", complexity := 10, touches_external_services := true }

/-- A cyclic two-task plan: task 1 depends on task 2 and task 2 on task 1, so
neither is ever ready. -/
def cyclicTasks : List Task := [⟨1, "generic", [2]⟩, ⟨2, "generic", [1]⟩]

/-- A benign environment: every collaborator behaves and every dispatch
succeeds. -/
def envBenign : Env :=
  { plannerPlan := .ok []
    exec := fun _ _ => .res "completed"
    board := .ok { approved := true }
    quality := .ok { passed := true } }

/-- The context as it enters the scheduling loop for the cyclic plan: status
`executing` after the planning phase recorded one agent type and two planned
tasks. -/
def ctxCyc : WorkflowContext :=
  { name := "w", status := .executing, agents_involved := ["generic"],
    metadata := [("planned_tasks", .nat 2)] }

/-- An environment whose executor fails every dispatch of every task. -/
def envAllFail : Env :=
  { plannerPlan := .ok []
    exec := fun _ _ => .res "failed"
    board := .ok { approved := true }
    quality := .ok { passed := true } }

/-- A single independent task. -/
def oneTask : List Task := [⟨1, "generic", []⟩]

/-- The context entering the scheduling loop for the one-task plan. -/
def ctxOne : WorkflowContext :=
  { name := "w", status := .executing, agents_involved := ["generic"],
    metadata := [("planned_tasks", .nat 1)] }

/-- An environment whose planner raises. -/
def envPlannerBoom : Env :=
  { plannerPlan := .error "boom"
    exec := fun _ _ => .res "completed"
    board := .ok { approved := true }
    quality := .ok { passed := true } }

/-- An already-open breaker with a zero recovery timeout. -/
def cbOpenZero : CircuitBreaker :=
  { service_name := "db", failure_threshold := 3, recovery_timeout := 0,
    state := .open, failure_count := 3, last_failure_time := 5 }

/-- A message whose age at instant 10 is exactly its TTL. -/
def mBoundary : Msg :=
  { mid := 9, receiver := "a", priority := 2, timestamp := 0, ttl_seconds := 10 }

/-- A message with TTL 0 and a timestamp in the past relative to instant 1. -/
def mZero : Msg :=
  { mid := 8, receiver := "a", priority := 2, timestamp := 0, ttl_seconds := 0 }

/-- The one-task context after the retry-exhaustion fail-fast. -/
def ctxOneFailed : WorkflowContext := { ctxOne with status := .failed }

/-- The dispatch trace of exhausting task 1: the initial dispatch and the
three retry attempts. -/
def trExhaust : Trace := [(1, 0), (1, 1), (1, 2), (1, 3)]

/-- Three non-critical messages to one recipient: a medium-priority arrival
followed by two high-priority arrivals (a priority tie). -/
def msgsW : List Msg :=
  [{ mid := 0, receiver := "a", priority := 2 },
   { mid := 1, receiver := "a", priority := 3 },
   { mid := 2, receiver := "a", priority := 3 }]

/-! ## Helper lemmas -/

theorem lookupKey_setKey_self {α : Type} (l : List (String × α)) (k : String)
    (v : α) : lookupKey (setKey l k v) k = some v := by
  induction l with
  | nil => simp [setKey, lookupKey]
  | cons p rest ih =>
    obtain ⟨k', v'⟩ := p
    by_cases h : k' = k
    · simp [setKey, lookupKey, h]
    · simp [setKey, lookupKey, h, ih]

theorem lookupKey_setKey_other {α : Type} (l : List (String × α)) (k w : String)
    (v : α) (hw : w ≠ k) : lookupKey (setKey l k v) w = lookupKey l w := by
  have hkw : k ≠ w := Ne.symm hw
  induction l with
  | nil => simp [setKey, lookupKey, hkw]
  | cons p rest ih =>
    obtain ⟨k', v'⟩ := p
    by_cases h : k' = k
    · subst h
      simp [setKey, lookupKey, hkw]
    · simp only [setKey, lookupKey, if_neg h]
      by_cases h2 : k' = w
      · simp [h2]
      · simp [h2, ih]

theorem mem_insertByPriority (m a : Msg) (l : List Msg) :
    a ∈ insertByPriority m l ↔ a = m ∨ a ∈ l := by
  induction l with
  | nil => simp [insertByPriority]
  | cons x xs ih =>
    simp only [insertByPriority]
    split
    · simp [List.mem_cons]
    · rw [List.mem_cons, List.mem_cons, ih]
      tauto

theorem insertByPriority_pairwise (m : Msg) (l : List Msg)
    (hl : l.Pairwise msgOrder) (hmid : ∀ x ∈ l, x.mid < m.mid) :
    (insertByPriority m l).Pairwise msgOrder := by
  induction l with
  | nil => simp [insertByPriority]
  | cons x xs ih =>
    rw [List.pairwise_cons] at hl
    obtain ⟨hx, hxs⟩ := hl
    simp only [insertByPriority]
    by_cases hpr : x.priority < m.priority
    · rw [if_pos hpr]
      refine List.Pairwise.cons ?_ (List.Pairwise.cons hx hxs)
      intro z hz
      rcases List.mem_cons.mp hz with hz | hz
      · subst hz
        exact Or.inl hpr
      · rcases hx z hz with h1 | h2
        · exact Or.inl (h1.trans hpr)
        · exact Or.inl (h2.1 ▸ hpr)
    · rw [if_neg hpr]
      refine List.Pairwise.cons ?_
        (ih hxs fun y hy => hmid y (List.mem_cons_of_mem x hy))
      intro w hw
      rcases (mem_insertByPriority m w xs).mp hw with hw | hw
      · subst hw
        rcases lt_or_eq_of_le (not_lt.mp hpr) with h1 | h1
        · exact Or.inl h1
        · exact Or.inr ⟨h1, hmid x (List.mem_cons_self x xs)⟩
      · exact hx w hw

theorem foldl_insertByPriority_pairwise :
    ∀ (l acc : List Msg), acc.Pairwise msgOrder →
      (∀ x ∈ acc, ∀ y ∈ l, x.mid < y.mid) →
      l.Pairwise (fun a b => a.mid < b.mid) →
      (l.foldl (fun acc m => insertByPriority m acc) acc).Pairwise msgOrder := by
  intro l
  induction l with
  | nil => intro acc hacc _ _; exact hacc
  | cons m rest ih =>
    intro acc hacc hcross hl
    rw [List.pairwise_cons] at hl
    obtain ⟨hm, hrest⟩ := hl
    simp only [List.foldl_cons]
    refine ih (insertByPriority m acc) ?_ ?_ hrest
    · exact insertByPriority_pairwise m acc hacc
        fun x hx => hcross x hx m (List.mem_cons_self m rest)
    · intro x hx y hy
      rcases (mem_insertByPriority m x acc).mp hx with hx | hx
      · subst hx
        exact hm y hy
      · exact hcross x hx y (List.mem_cons_of_mem m hy)

/-- Stability of the queue resort: if the input arrives in strictly
increasing `mid` order, the sorted queue is ordered by priority descending
with ties in arrival order. -/
theorem sortQueue_pairwise (l : List Msg)
    (hl : l.Pairwise fun a b => a.mid < b.mid) :
    (sortQueue l).Pairwise msgOrder :=
  foldl_insertByPriority_pairwise l [] (by simp) (by simp) hl

theorem insertByPriority_perm (m : Msg) (l : List Msg) :
    List.Perm (insertByPriority m l) (m :: l) := by
  induction l with
  | nil => rfl
  | cons x xs ih =>
    simp only [insertByPriority]
    split
    · rfl
    · exact (ih.cons x).trans (List.Perm.swap m x xs)

theorem foldl_insertByPriority_perm :
    ∀ (l acc : List Msg),
      List.Perm (l.foldl (fun acc m => insertByPriority m acc) acc) (l ++ acc) := by
  intro l
  induction l with
  | nil => intro acc; rfl
  | cons m rest ih =>
    intro acc
    simp only [List.foldl_cons, List.cons_append]
    refine ((ih (insertByPriority m acc)).trans ?_)
    refine (List.Perm.append_left rest (insertByPriority_perm m acc)).trans ?_
    exact List.perm_middle

theorem sortQueue_perm (l : List Msg) : List.Perm (sortQueue l) l := by
  have h := foldl_insertByPriority_perm l []
  rw [List.append_nil] at h
  exact h

theorem insertByPriority_of_le (m : Msg) (l : List Msg)
    (h : ∀ x ∈ l, m.priority ≤ x.priority) :
    insertByPriority m l = l ++ [m] := by
  induction l with
  | nil => rfl
  | cons x xs ih =>
    simp only [insertByPriority]
    rw [if_neg (not_lt.mpr (h x (List.mem_cons_self x xs)))]
    rw [ih fun y hy => h y (List.mem_cons_of_mem x hy)]
    rfl

theorem insertByPriority_pairwise_prioGE (m : Msg) (l : List Msg)
    (hl : l.Pairwise prioGE) : (insertByPriority m l).Pairwise prioGE := by
  induction l with
  | nil => simp [insertByPriority, prioGE]
  | cons x xs ih =>
    rw [List.pairwise_cons] at hl
    obtain ⟨hx, hxs⟩ := hl
    simp only [insertByPriority]
    by_cases hpr : x.priority < m.priority
    · rw [if_pos hpr]
      refine List.Pairwise.cons ?_ (List.Pairwise.cons hx hxs)
      intro z hz
      rcases List.mem_cons.mp hz with hz | hz
      · subst hz
        exact le_of_lt hpr
      · exact (hx z hz).trans (le_of_lt hpr)
    · rw [if_neg hpr]
      refine List.Pairwise.cons ?_ (ih hxs)
      intro w hw
      rcases (mem_insertByPriority m w xs).mp hw with hw | hw
      · subst hw
        exact not_lt.mp hpr
      · exact hx w hw

theorem foldl_insertByPriority_sorted :
    ∀ (s acc : List Msg), acc.Pairwise prioGE → s.Pairwise prioGE →
      (∀ x ∈ acc, ∀ y ∈ s, y.priority ≤ x.priority) →
      s.foldl (fun acc m => insertByPriority m acc) acc = acc ++ s := by
  intro s
  induction s with
  | nil => intro acc _ _ _; simp
  | cons m rest ih =>
    intro acc hacc hs hcross
    rw [List.pairwise_cons] at hs
    obtain ⟨hm, hrest⟩ := hs
    simp only [List.foldl_cons]
    have hins : insertByPriority m acc = acc ++ [m] :=
      insertByPriority_of_le m acc
        fun x hx => hcross x hx m (List.mem_cons_self m rest)
    rw [hins]
    have h1 : (acc ++ [m]).Pairwise prioGE := by
      rw [List.pairwise_append]
      refine ⟨hacc, by simp, ?_⟩
      intro x hx y hy
      rw [List.mem_singleton] at hy
      rw [hy]
      exact hcross x hx m (List.mem_cons_self m rest)
    have h2 : ∀ x ∈ acc ++ [m], ∀ y ∈ rest, y.priority ≤ x.priority := by
      intro x hx y hy
      rcases List.mem_append.mp hx with hx | hx
      · exact hcross x hx y (List.mem_cons_of_mem m hy)
      · rw [List.mem_singleton] at hx
        rw [hx]
        exact hm y hy
    rw [ih (acc ++ [m]) h1 hrest h2, List.append_assoc]
    rfl

/-- Sorting an already priority-descending list leaves it unchanged. -/
theorem sortQueue_sorted_id (s : List Msg) (hs : s.Pairwise prioGE) :
    sortQueue s = s := by
  have := foldl_insertByPriority_sorted s [] (by simp) hs (by simp)
  rw [List.nil_append] at this
  exact this

theorem sortQueue_pairwise_prioGE (l : List Msg) :
    (sortQueue l).Pairwise prioGE := by
  have : ∀ (l acc : List Msg), acc.Pairwise prioGE →
      (l.foldl (fun acc m => insertByPriority m acc) acc).Pairwise prioGE := by
    intro l
    induction l with
    | nil => intro acc h; exact h
    | cons m rest ih =>
      intro acc h
      exact ih (insertByPriority m acc) (insertByPriority_pairwise_prioGE m acc h)
  exact this l [] (by simp)

theorem sortQueue_append_singleton (l : List Msg) (m : Msg) :
    sortQueue (l ++ [m]) = insertByPriority m (sortQueue l) := by
  simp [sortQueue, List.foldl_append]

/-- Iterated append-and-resort sends compute the same queue as one stable
sort of the whole arrival sequence. -/
theorem foldl_resort_eq_sortQueue :
    ∀ (msgs q : List Msg), q.Pairwise prioGE →
      msgs.foldl (fun q m => sortQueue (q ++ [m])) q =
        msgs.foldl (fun acc m => insertByPriority m acc) q := by
  intro msgs
  induction msgs with
  | nil => intro q _; rfl
  | cons m rest ih =>
    intro q hq
    simp only [List.foldl_cons]
    rw [sortQueue_append_singleton, sortQueue_sorted_id q hq]
    exact ih (insertByPriority m q) (insertByPriority_pairwise_prioGE m q hq)

/-- The queue a recipient holds after a sequence of sends addressed to it. -/
theorem sendAll_queues (msgs : List Msg) (bus : MessageBus) (a : String)
    (hrecv : ∀ m ∈ msgs, m.receiver = a)
    (hcrit : ∀ m ∈ msgs, m.priority ≠ 4) :
    (sendAll bus msgs).queues a =
      msgs.foldl (fun q m => sortQueue (q ++ [m])) (bus.queues a) := by
  induction msgs generalizing bus with
  | nil => rfl
  | cons m rest ih =>
    simp only [sendAll, List.foldl_cons]
    have hr : m.receiver = a := hrecv m (List.mem_cons_self m rest)
    have hc : (m.priority == 4) = false := by
      simp [hcrit m (List.mem_cons_self m rest)]
    have hsend : (send bus m).queues a = sortQueue (bus.queues a ++ [m]) := by
      simp only [send, hc, Bool.false_eq_true, if_false]
      rw [if_pos hr.symm, hr]
    have := ih (send bus m)
      (fun x hx => hrecv x (List.mem_cons_of_mem m hx))
      (fun x hx => hcrit x (List.mem_cons_of_mem m hx))
    simp only [sendAll] at this
    rw [this, hsend]

/-- Draining a queue of unexpired messages returns it in order. -/
theorem receiveAll_drains :
    ∀ (q : List Msg) (bus : MessageBus) (a : String) (now : Int),
      bus.queues a = q → (∀ m ∈ q, is_expired m now = false) →
      receiveAll bus a now q.length = q := by
  intro q
  induction q with
  | nil => intro bus a now _ _; rfl
  | cons h t ih =>
    intro bus a now hq hexp
    have hfilter : (bus.queues a).filter (fun m => !is_expired m now) = h :: t := by
      rw [hq]
      refine List.filter_eq_self.mpr ?_
      intro m hm
      rw [hexp m hm]
      rfl
    have hrecv : receive bus a now =
        (some h, { bus with queues := fun x => if x = a then t else bus.queues x }) := by
      simp only [receive, hfilter]
    simp only [List.length_cons, receiveAll, hrecv]
    congr 1
    exact ih _ a now (by simp) fun m hm => hexp m (List.mem_cons_of_mem h hm)

theorem record_failure_failure_threshold (cb : CircuitBreaker) (now : Int) :
    (record_failure cb now).failure_threshold = cb.failure_threshold := by
  simp only [record_failure]
  split <;> rfl

theorem record_failure_recovery_timeout (cb : CircuitBreaker) (now : Int) :
    (record_failure cb now).recovery_timeout = cb.recovery_timeout := by
  simp only [record_failure]
  split <;> rfl

theorem record_failure_failure_count (cb : CircuitBreaker) (now : Int) :
    (record_failure cb now).failure_count = cb.failure_count + 1 := by
  simp only [record_failure]
  split <;> rfl

theorem record_failures_failure_threshold (times : List Int) (cb : CircuitBreaker) :
    (record_failures cb times).failure_threshold = cb.failure_threshold := by
  induction times generalizing cb with
  | nil => rfl
  | cons t ts ih =>
    simp only [record_failures, List.foldl_cons] at ih ⊢
    rw [ih, record_failure_failure_threshold]

theorem record_failures_recovery_timeout (times : List Int) (cb : CircuitBreaker) :
    (record_failures cb times).recovery_timeout = cb.recovery_timeout := by
  induction times generalizing cb with
  | nil => rfl
  | cons t ts ih =>
    simp only [record_failures, List.foldl_cons] at ih ⊢
    rw [ih, record_failure_recovery_timeout]

/-- Once enough consecutive failures have been recorded to reach the
threshold, the breaker is open. -/
theorem record_failures_open (times : List Int) (cb : CircuitBreaker)
    (hne : times ≠ [])
    (hcnt : cb.failure_threshold ≤ cb.failure_count + times.length) :
    (record_failures cb times).state = .open := by
  induction times generalizing cb with
  | nil => exact absurd rfl hne
  | cons t ts ih =>
    simp only [record_failures, List.foldl_cons]
    by_cases hts : ts = []
    · subst hts
      simp only [List.foldl_nil]
      simp only [List.length_cons, List.length_nil] at hcnt
      simp only [record_failure]
      rw [if_pos (by omega)]
    · exact ih (record_failure cb t) hts
        (by rw [record_failure_failure_threshold, record_failure_failure_count]
            simp only [List.length_cons] at hcnt
            omega)

/-- Every dispatch performed by the retry sub-loop is a dispatch of the task
being retried. -/
theorem retryLoop_trace_tid (env : Env) (tid : Nat) (attempts calls : Nat) :
    ∀ p ∈ (retryLoop env tid attempts calls).2.2, p.1 = tid := by
  induction attempts generalizing calls with
  | zero => intro p hp; simp [retryLoop] at hp
  | succ k ih =>
    intro p hp
    simp only [retryLoop] at hp
    by_cases hf : isFailureResult (env.exec tid calls)
    · rw [if_pos hf] at hp
      simp only [List.mem_cons] at hp
      rcases hp with hp | hp
      · rw [hp]
      · exact ih (calls + 1) p hp
    · rw [if_neg hf] at hp
      simp only [List.mem_singleton] at hp
      rw [hp]

/-- When batch processing ends in the early `return context`, that context
has status `failed` (the only early return is the retry-exhaustion one). -/
theorem processTasks_ret_failed (env : Env) :
    ∀ (l : List (Task × ExecResult)) (completed : List Nat)
      (calls : Nat → Nat) (ctx c : WorkflowContext) (trace tr : Trace),
      processTasks env l completed calls ctx trace = .ret c tr →
      c.status = .failed := by
  intro l
  induction l with
  | nil =>
    intro completed calls ctx c trace tr h
    simp [processTasks] at h
  | cons p rest ih =>
    intro completed calls ctx c trace tr h
    obtain ⟨t, r⟩ := p
    simp only [processTasks] at h
    by_cases hf : isFailureResult r
    · rw [if_pos hf] at h
      rcases hr : retryLoop env t.id 3 (calls t.id) with ⟨o, cc, trr⟩
      rw [hr] at h
      cases o with
      | some nr =>
        simp only at h
        exact ih _ _ _ c _ tr h
      | none =>
        simp only at h
        cases h
        rfl
    · rw [if_neg hf] at h
      exact ih _ _ _ c _ tr h

/-- When batch processing ends in the early return, every dispatch in the
final trace was either already in the incoming trace or belongs to a task of
the batch being processed. -/
theorem processTasks_ret_trace (env : Env) :
    ∀ (l : List (Task × ExecResult)) (completed : List Nat)
      (calls : Nat → Nat) (ctx c : WorkflowContext) (trace tr : Trace),
      processTasks env l completed calls ctx trace = .ret c tr →
      ∀ p ∈ tr, p ∈ trace ∨ p.1 ∈ l.map fun x => x.1.id := by
  intro l
  induction l with
  | nil =>
    intro completed calls ctx c trace tr h
    simp [processTasks] at h
  | cons q rest ih =>
    intro completed calls ctx c trace tr h
    obtain ⟨t, r⟩ := q
    simp only [processTasks] at h
    by_cases hf : isFailureResult r
    · rw [if_pos hf] at h
      rcases hr : retryLoop env t.id 3 (calls t.id) with ⟨o, cc, trr⟩
      have htrr : ∀ p ∈ trr, p.1 = t.id := by
        intro p hp
        have := retryLoop_trace_tid env t.id 3 (calls t.id) p
        rw [hr] at this
        exact this hp
      rw [hr] at h
      cases o with
      | some nr =>
        simp only at h
        intro p hp
        rcases ih _ _ _ c _ tr h p hp with hmem | hid
        · rcases List.mem_append.mp hmem with h1 | h2
          · exact Or.inl h1
          · refine Or.inr ?_
            simp only [List.map_cons, List.mem_cons]
            exact Or.inl (htrr p h2)
        · refine Or.inr ?_
          simp only [List.map_cons, List.mem_cons]
          exact Or.inr hid
      | none =>
        simp only at h
        cases h
        intro p hp
        rcases List.mem_append.mp hp with h1 | h2
        · exact Or.inl h1
        · refine Or.inr ?_
          simp only [List.map_cons, List.mem_cons]
          exact Or.inl (htrr p h2)
    · rw [if_neg hf] at h
      intro p hp
      rcases ih _ _ _ c _ tr h p hp with hmem | hid
      · exact Or.inl hmem
      · refine Or.inr ?_
        simp only [List.map_cons, List.mem_cons]
        exact Or.inr hid

/-- Scheduler refinement: the source loop equals the spec's filter. -/
theorem get_ready_tasks_eq_readySpec (tasks : List Task) (completed : List Nat) :
    get_ready_tasks tasks completed = readySpec tasks completed := by
  induction tasks with
  | nil => rfl
  | cons t rest ih =>
    simp only [get_ready_tasks, readySpec, List.filter_cons]
    by_cases h1 : t.id ∈ completed
    · simp [h1, ih, readySpec]
    · by_cases h2 : ∀ d ∈ t.dependencies, d ∈ completed
      · simp [h1, h2, ih, readySpec]
      · simp [h1, h2, ih, readySpec]

/-! ## Claims -/

/-- C5. For every task list and every completed-id set, `get_ready_tasks`
returns exactly the tasks, in input order, whose id is not in the completed
set and all of whose dependency ids are contained in the completed set (the
spec's filter `readySpec`); in particular no returned task has a dependency
outside the completed set. The embedding is a pure function, so the absence
of side effects on the arguments is intrinsic. -/
theorem C5_get_ready_tasks_spec (tasks : List Task) (completed : List Nat) :
    get_ready_tasks tasks completed = readySpec tasks completed ∧
    ∀ t ∈ get_ready_tasks tasks completed, ∀ d ∈ t.dependencies, d ∈ completed := by
  refine ⟨get_ready_tasks_eq_readySpec tasks completed, ?_⟩
  intro t ht d hd
  rw [get_ready_tasks_eq_readySpec] at ht
  simp only [readySpec, List.mem_filter, decide_eq_true_eq] at ht
  exact ht.2.2 d hd

/-- C5 witness: on a concrete task set, a task with an unsatisfied (absent)
dependency is not ready while an unblocked task is. -/
theorem C5_witness :
    get_ready_tasks [⟨1, "generic", []⟩, ⟨2, "generic", [7]⟩] [] =
      readySpec [⟨1, "generic", []⟩, ⟨2, "generic", [7]⟩] [] ∧
    ∀ t ∈ get_ready_tasks [⟨1, "generic", []⟩, ⟨2, "generic", [7]⟩] [],
      ∀ d ∈ t.dependencies, d ∈ ([] : List Nat) :=
  C5_get_ready_tasks_spec [⟨1, "generic", []⟩, ⟨2, "generic", [7]⟩] []

/-- C10 counterexample: an explicitly supplied empty plan is falsy in
`initial_plan or planner.create_plan(goal)`, so the planner IS consulted and
its plan is the one used, contradicting the claim that an explicitly supplied
empty task list suppresses the planner call. -/
theorem C10_counterexample :
    plannerConsulted (some []) = true ∧
    choosePlan (some []) (.ok [⟨1, "generic", []⟩]) = .ok [⟨1, "generic", []⟩] := by
  constructor
  · rfl
  · rfl

/-- C10 amended. The planner is not consulted exactly when the supplied plan
is truthy: for every explicitly supplied non-empty plan, `create_plan` is not
consulted and the supplied plan is used; when no plan is given, and also when
the supplied plan is the empty list, the planner is consulted and its answer
is used. -/
theorem C10_planner_only_without_truthy_plan (p : List Task)
    (planner : Except String (List Task)) (hp : p ≠ []) :
    (choosePlan (some p) planner = .ok p ∧ plannerConsulted (some p) = false) ∧
    (choosePlan none planner = planner ∧ plannerConsulted none = true) ∧
    (choosePlan (some []) planner = planner ∧ plannerConsulted (some []) = true) := by
  refine ⟨⟨?_, ?_⟩, ⟨rfl, rfl⟩, ⟨rfl, rfl⟩⟩
  · simp [choosePlan, hp]
  · simp [plannerConsulted, hp]

/-- C10 witness: the amended claim at a concrete one-task plan. -/
theorem C10_witness :
    (choosePlan (some [⟨1, "generic", []⟩]) (.error "noplan") =
        .ok [⟨1, "generic", []⟩] ∧
      plannerConsulted (some [⟨1, "generic", []⟩]) = false) ∧
    (choosePlan none (.error "noplan") = .error "noplan" ∧
      plannerConsulted (none : Option (List Task)) = true) ∧
    (choosePlan (some []) (.error "noplan") = .error "noplan" ∧
      plannerConsulted (some ([] : List Task)) = true) :=
  C10_planner_only_without_truthy_plan [⟨1, "generic", []⟩] (.error "noplan")
    (by decide)

/-- C9 counterexample: at complexity 10 (no external services, no database)
the full-board decision's conditions do not contain the senior-tier
`code_review_required` condition, so the decision does not contain all
senior-tier conditions as the claim states. -/
theorem C9_counterexample :
    (review_workflow { workflow_type := "x", complexity := 10 }).risk_level =
      .critical ∧
    "daily_checkpoints" ∈
      (review_workflow { workflow_type := "x", complexity := 10 }).conditions ∧
    "code_review_required" ∉
      (review_workflow { workflow_type := "x", complexity := 10 }).conditions := by
  refine ⟨rfl, ?_, ?_⟩ <;> decide

/-- C9 amended. For every proposal with complexity 9-10 the decision is the
full-board review: its conditions contain the senior-tier daily-checkpoint
condition together with mandatory rollback plan, security audit, final
sign-off and post-mortem, plus a penetration-test condition when external
services are touched, and its risk level is critical; the senior-tier
code-review condition, however, is NOT among the conditions. -/
theorem C9_full_board_conditions (p : WorkflowProposal)
    (h9 : 9 ≤ p.complexity) (h10 : p.complexity ≤ 10) :
    review_workflow p = full_board_review p ∧
    "daily_checkpoints" ∈ (review_workflow p).conditions ∧
    "rollback_plan_mandatory" ∈ (review_workflow p).conditions ∧
    "security_audit_required" ∈ (review_workflow p).conditions ∧
    "cto_final_sign_off" ∈ (review_workflow p).conditions ∧
    "post_mortem_on_completion" ∈ (review_workflow p).conditions ∧
    (p.touches_external_services = true →
      "penetration_test_before_deploy" ∈ (review_workflow p).conditions) ∧
    (review_workflow p).risk_level = .critical ∧
    "code_review_required" ∉ (review_workflow p).conditions := by
  have hroute : review_workflow p = full_board_review p := by
    unfold review_workflow
    rw [if_neg (by omega), if_neg (by omega), if_neg (by omega)]
  rw [hroute]
  refine ⟨rfl, ?_⟩
  unfold full_board_review
  by_cases hext : p.touches_external_services <;> simp [hext]

/-- C9 witness: the amended claim at complexity 10 with external services
touched. -/
theorem C9_witness :
    review_workflow pC9 = full_board_review pC9 ∧
    "daily_checkpoints" ∈ (review_workflow pC9).conditions ∧
    "rollback_plan_mandatory" ∈ (review_workflow pC9).conditions ∧
    "security_audit_required" ∈ (review_workflow pC9).conditions ∧
    "cto_final_sign_off" ∈ (review_workflow pC9).conditions ∧
    "post_mortem_on_completion" ∈ (review_workflow pC9).conditions ∧
    (pC9.touches_external_services = true →
      "penetration_test_before_deploy" ∈ (review_workflow pC9).conditions) ∧
    (review_workflow pC9).risk_level = .critical ∧
    "code_review_required" ∉ (review_workflow pC9).conditions :=
  C9_full_board_conditions pC9 (by decide) (by decide)

/-- C4 counterexample: `abort_workflow` on a workflow whose context already
has the terminal status `completed` does not leave it unchanged — it
overwrites the status with `aborted`, because the source only checks
membership in `active_workflows` (from which contexts are never removed),
never the current status. -/
theorem C4_counterexample :
    ctxDone.status = .completed ∧
    abort_workflow [("w", ctxDone)] "w" =
      (true, [("w", { ctxDone with status := .aborted })]) := by
  constructor
  · rfl
  · rfl

/-- C4 amended. `abort_workflow(id)` forces status `aborted` for ANY
registered workflow — also one whose context already has a terminal status —
returning true and leaving every other entry unchanged; it returns false and
changes nothing only when the id is unknown. -/
theorem C4_abort_workflow_behaviour (m : List (String × WorkflowContext))
    (wid : String) :
    (∀ c, lookupKey m wid = some c →
      (abort_workflow m wid).1 = true ∧
      lookupKey (abort_workflow m wid).2 wid = some { c with status := .aborted } ∧
      ∀ w, w ≠ wid → lookupKey (abort_workflow m wid).2 w = lookupKey m w) ∧
    (lookupKey m wid = none → abort_workflow m wid = (false, m)) := by
  constructor
  · intro c hc
    have h1 : abort_workflow m wid =
        (true, setKey m wid { c with status := .aborted }) := by
      simp [abort_workflow, hc]
    rw [h1]
    exact ⟨rfl, lookupKey_setKey_self m wid _,
      fun w hw => lookupKey_setKey_other m wid w _ hw⟩
  · intro hc
    simp [abort_workflow, hc]

/-- C4 witness: the amended claim on a concrete one-entry map, both for a
registered id (with a terminal context) and for an unknown id. -/
theorem C4_witness :
    ((abort_workflow [("w", ctxDone)] "w").1 = true ∧
      lookupKey (abort_workflow [("w", ctxDone)] "w").2 "w" =
        some { ctxDone with status := .aborted } ∧
      ∀ w, w ≠ "w" →
        lookupKey (abort_workflow [("w", ctxDone)] "w").2 w =
          lookupKey [("w", ctxDone)] w) ∧
    abort_workflow [("w", ctxDone)] "nope" = (false, [("w", ctxDone)]) := by
  refine ⟨(C4_abort_workflow_behaviour [("w", ctxDone)] "w").1 ctxDone rfl, ?_⟩
  exact (C4_abort_workflow_behaviour [("w", ctxDone)] "nope").2 rfl

/-- C6. For a breaker constructed closed with zero failures: (a) after exactly
`failure_threshold` consecutive `record_failure` calls (threshold at least 1)
the state is `open`, and `can_execute` answers false as long as the recovery
timeout has not yet elapsed since the last failure; (b) after
`record_success` the counter is 0, the state is `closed` and `can_execute`
answers true; (c) with `recovery_timeout = 0`, `can_execute` on any open
breaker (queried at or after the last failure time) transitions it to
`half_open` and answers true. -/
theorem C6_circuit_breaker (nm : String) (thr : Nat) (tmo : Int)
    (times : List Int) (now now2 : Int) :
    (1 ≤ thr → times.length = thr →
      (record_failures (mkBreaker nm thr tmo) times).state = .open ∧
      (now - (record_failures (mkBreaker nm thr tmo) times).last_failure_time <
          tmo →
        (can_execute (record_failures (mkBreaker nm thr tmo) times) now).1 =
          false)) ∧
    (∀ cb : CircuitBreaker,
      (record_success cb).failure_count = 0 ∧
      (record_success cb).state = .closed ∧
      (can_execute (record_success cb) now2).1 = true) ∧
    (∀ cb : CircuitBreaker, cb.state = .open → cb.recovery_timeout = 0 →
      cb.last_failure_time ≤ now →
      can_execute cb now = (true, { cb with state := .half_open })) := by
  refine ⟨?_, ?_, ?_⟩
  · intro h1 h2
    have hne : times ≠ [] := by
      intro h
      rw [h] at h2
      simp at h2
      omega
    have hopen : (record_failures (mkBreaker nm thr tmo) times).state = .open :=
      record_failures_open times (mkBreaker nm thr tmo) hne
        (by simp [mkBreaker, h2])
    refine ⟨hopen, ?_⟩
    intro h3
    have htmo : (record_failures (mkBreaker nm thr tmo) times).recovery_timeout
        = tmo := by
      rw [record_failures_recovery_timeout]
      rfl
    simp only [can_execute, hopen, htmo]
    rw [if_neg (by exact not_le.mpr h3)]
  · intro cb
    exact ⟨rfl, rfl, rfl⟩
  · intro cb h1 h2 h3
    simp only [can_execute, h1, h2]
    rw [if_pos (by rw [sub_nonneg]; exact h3)]

/-- C6 witness: a threshold-3 breaker tripped by three failures denies
execution before the timeout; a success closes it again; a zero-timeout open
breaker half-opens and admits. -/
theorem C6_witness :
    (record_failures (mkBreaker "db" 3 30) [1, 2, 3]).state = .open ∧
    (can_execute (record_failures (mkBreaker "db" 3 30) [1, 2, 3]) 4).1 =
      false ∧
    (record_success (record_failures (mkBreaker "db" 3 30) [1, 2, 3])).failure_count
      = 0 ∧
    (record_success (record_failures (mkBreaker "db" 3 30) [1, 2, 3])).state =
      .closed ∧
    (can_execute (record_success (record_failures (mkBreaker "db" 3 30) [1, 2, 3])) 4).1
      = true ∧
    can_execute cbOpenZero 5 = (true, { cbOpenZero with state := .half_open }) := by
  have h := C6_circuit_breaker "db" 3 30 [1, 2, 3] 4 4
  have ha := h.1 (by decide) (by decide)
  have hb := h.2.1 (record_failures (mkBreaker "db" 3 30) [1, 2, 3])
  have hc := (C6_circuit_breaker "db" 3 0 [] 5 5).2.2 cbOpenZero rfl rfl (by decide)
  exact ⟨ha.1, ha.2 (by decide), hb.1, hb.2.1, hb.2.2, hc⟩

/-- C1. The claim states a deadlocked workflow (no ready task, set not
complete) stops with final status `failed` and that no completion phase runs
afterwards. On the cyclic two-task plan the scheduling loop does detect the
deadlock and sets status `failed` via the `break` at orchestrator.py line
136 — but execution then falls through to `_phase_completion`, which
unconditionally overwrites the status, so `execute_workflow` returns status
`completed`: the code contradicts its own deadlock handling. -/
theorem C1_deadlock_completion_bug :
    execLoop envBenign cyclicTasks 3 [] (fun _ => 0) ctxCyc [] =
      .finished { ctxCyc with status := .failed } [] ∧
    (execute_workflow envBenign "w" (some cyclicTasks) [] false).1.status =
      .completed := by
  constructor
  · rfl
  · rfl

/-- C8 counterexample: a message whose age at the receive instant is exactly
its TTL (timestamp 0, TTL 10, received at 10) IS returned by `receive`,
because `is_expired` uses a strict comparison (`elapsed > ttl`), refuting the
claim that age equal to TTL is purged. -/
theorem C8_counterexample :
    (10 : Int) - mBoundary.timestamp = mBoundary.ttl_seconds ∧
    is_expired mBoundary 10 = false ∧
    (receive (send emptyBus mBoundary) "a" 10).1 = some mBoundary := by
  refine ⟨by decide, by decide, by decide⟩

/-- C8 amended. `receive` first purges every message whose age is STRICTLY
greater than its TTL (so a message whose age equals its TTL survives the
purge, but TTL 0 with any past timestamp is purged); the head of the
remaining queue is popped and returned, or none when nothing remains. -/
theorem C8_receive_purges_strictly (bus : MessageBus) (a : String) (now : Int) :
    (receive bus a now).1 =
      ((bus.queues a).filter fun m => !is_expired m now).head? ∧
    ((receive bus a now).2).queues a =
      ((bus.queues a).filter fun m => !is_expired m now).tail ∧
    (∀ m ∈ bus.queues a, m.ttl_seconds < now - m.timestamp →
      (receive bus a now).1 ≠ some m ∧ m ∉ ((receive bus a now).2).queues a) ∧
    (∀ m ∈ bus.queues a, m.ttl_seconds = 0 → m.timestamp < now →
      (receive bus a now).1 ≠ some m) := by
  have hexp : ∀ m, m ∈ (bus.queues a).filter (fun m => !is_expired m now) →
      ¬(m.ttl_seconds < now - m.timestamp) := by
    intro m hm
    have := (List.mem_filter.mp hm).2
    simpa [is_expired] using this
  have hmain : (receive bus a now).1 =
        ((bus.queues a).filter fun m => !is_expired m now).head? ∧
      ((receive bus a now).2).queues a =
        ((bus.queues a).filter fun m => !is_expired m now).tail := by
    cases hq : (bus.queues a).filter fun m => !is_expired m now with
    | nil => simp [receive, hq]
    | cons h t => simp [receive, hq]
  refine ⟨hmain.1, hmain.2, ?_, ?_⟩
  · intro m _ hold
    constructor
    · intro hret
      rw [hmain.1] at hret
      have hmem : m ∈ (bus.queues a).filter fun m => !is_expired m now := by
        cases hq : (bus.queues a).filter fun m => !is_expired m now with
        | nil => rw [hq] at hret; simp at hret
        | cons h t =>
          rw [hq] at hret
          simp only [List.head?] at hret
          exact (Option.some.inj hret) ▸ List.mem_cons_self h t
      exact hexp m hmem hold
    · intro hmem2
      rw [hmain.2] at hmem2
      have hmem : m ∈ (bus.queues a).filter fun m => !is_expired m now :=
        List.mem_of_mem_tail hmem2
      exact hexp m hmem hold
  · intro m hm h0 hpast
    intro hret
    rw [hmain.1] at hret
    have hmem : m ∈ (bus.queues a).filter fun m => !is_expired m now := by
      cases hq : (bus.queues a).filter fun m => !is_expired m now with
      | nil => rw [hq] at hret; simp at hret
      | cons h t =>
        rw [hq] at hret
        simp only [List.head?] at hret
        exact (Option.some.inj hret) ▸ List.mem_cons_self h t
    exact hexp m hmem (by rw [h0]; exact sub_pos.mpr hpast)

/-- C8 witness: the amended purge at a concrete queue — the TTL-0 message
with a past timestamp is neither returned nor retained, and with the queue
empty after the purge, `receive` answers none. -/
theorem C8_witness :
    (receive (send emptyBus mZero) "a" 1).1 = none ∧
    (receive (send emptyBus mZero) "a" 1).1 ≠ some mZero ∧
    mZero ∉ ((receive (send emptyBus mZero) "a" 1).2).queues "a" := by
  have h := C8_receive_purges_strictly (send emptyBus mZero) "a" 1
  have hmem : mZero ∈ (send emptyBus mZero).queues "a" := by
    simp [send, emptyBus, mZero, sortQueue, insertByPriority]
  have hexp : mZero.ttl_seconds < 1 - mZero.timestamp := by decide
  have h3 := h.2.2.1 mZero hmem hexp
  refine ⟨?_, h3.1, h3.2⟩
  rw [h.1]
  decide

/-- C2. At any scheduling tick (any loop state), if the batch processing of
the ready tasks ends in the early `return context` — which happens exactly
when some task's initial dispatch failed and its 3-attempt diagnose-retry
sub-loop produced no non-failure result — then the scheduling loop returns
that context at once, the later quality/completion phases pass it through
untouched, its status is `failed`, and every dispatch in the final trace
either predates this tick or belongs to a task of this very batch: no
later-batch task is ever dispatched. -/
theorem C2_retry_exhaustion_fail_fast (env : Env) (tasks : List Task)
    (fuel : Nat) (completed : List Nat) (calls : Nat → Nat)
    (ctx c : WorkflowContext) (trace tr : Trace) (qualityGates : List String)
    (hnc : is_workflow_complete tasks completed = false)
    (hne : (get_ready_tasks tasks completed).isEmpty = false)
    (hret : processTasks env
        ((get_ready_tasks tasks completed).zip
          ((get_ready_tasks tasks completed).map fun t => env.exec t.id (calls t.id)))
        completed
        ((get_ready_tasks tasks completed).foldl
          (fun c t => fun i => if i = t.id then c i + 1 else c i) calls)
        ctx
        (trace ++ (get_ready_tasks tasks completed).map fun t => (t.id, calls t.id))
        = .ret c tr) :
    execLoop env tasks (fuel + 1) completed calls ctx trace = .returned c tr ∧
    finishPhases env qualityGates (.returned c tr) = .ok (c, tr) ∧
    c.status = .failed ∧
    ∀ p ∈ tr, p ∈ trace ∨ p.1 ∈ (get_ready_tasks tasks completed).map Task.id := by
  refine ⟨?_, rfl, processTasks_ret_failed env _ _ _ _ _ _ _ hret, ?_⟩
  · simp only [execLoop, hnc, Bool.false_eq_true, if_false, hne, hret]
  · intro p hp
    rcases processTasks_ret_trace env _ _ _ _ _ _ _ hret p hp with hmem | hid
    · rcases List.mem_append.mp hmem with h1 | h2
      · exact Or.inl h1
      · refine Or.inr ?_
        rcases List.mem_map.mp h2 with ⟨t, ht, hpt⟩
        exact List.mem_map.mpr ⟨t, ht, by rw [← hpt]⟩
    · refine Or.inr ?_
      rcases List.mem_map.mp hid with ⟨x, hx, hxp⟩
      have hx1 : x.1 ∈ get_ready_tasks tasks completed := by
        obtain ⟨xa, xb⟩ := x
        exact (List.of_mem_zip hx).1
      exact List.mem_map.mpr ⟨x.1, hx1, hxp⟩

/-- C2 witness: a single independent task whose executor fails the initial
dispatch and all three retries; the loop returns at once with status
`failed` and the trace stops at the third retry. -/
theorem C2_witness :
    execLoop envAllFail oneTask 1 [] (fun _ => 0) ctxOne [] =
      .returned ctxOneFailed trExhaust ∧
    finishPhases envAllFail [] (.returned ctxOneFailed trExhaust) =
      .ok (ctxOneFailed, trExhaust) ∧
    ctxOneFailed.status = .failed := by
  have h := C2_retry_exhaustion_fail_fast envAllFail oneTask 0 [] (fun _ => 0)
    ctxOne ctxOneFailed [] trExhaust [] (by decide) (by decide) (by rfl)
  exact ⟨h.1, h.2.1, h.2.2.1⟩

/-- C3. Any exception reaching the top level of `execute_workflow` (the
`Except.error` outcome of the body, covering a raising planner, board or
quality-gate collaborator) is caught: `execute_workflow` returns normally
with the caught context, its status forced to `failed` and the exception
text recorded under the `error` key of the results map. Exceptions raised by
executors never even reach the top level (the batch gathers them as values
and the retry loop swallows them), so no collaborator behaviour makes the
embedding anything but a total function returning a context. -/
theorem C3_exceptions_recorded (env : Env) (name : String)
    (initialPlan : Option (List Task)) (qualityGates : List String)
    (requireApproval : Bool) (e : String) (c : WorkflowContext) (tr : Trace)
    (h : executeBody env name initialPlan qualityGates requireApproval =
      .error (e, c, tr)) :
    execute_workflow env name initialPlan qualityGates requireApproval =
      ({ c with
          status := .failed
          results := setKey c.results "error" (.s e) }, tr) ∧
    (execute_workflow env name initialPlan qualityGates requireApproval).1.status
      = .failed ∧
    lookupKey
      (execute_workflow env name initialPlan qualityGates requireApproval).1.results
      "error" = some (.s e) := by
  have h1 : execute_workflow env name initialPlan qualityGates requireApproval =
      ({ c with
          status := .failed
          results := setKey c.results "error" (.s e) }, tr) := by
    simp only [execute_workflow, h]
  refine ⟨h1, ?_, ?_⟩
  · rw [h1]
  · rw [h1]
    exact lookupKey_setKey_self c.results "error" (.s e)

/-- C3 witness: a planner that raises `boom` yields a normally returned
context with status `failed` and the text under `error`. -/
theorem C3_witness :
    execute_workflow envPlannerBoom "w" none [] false =
      ({ name := "w", status := .failed, results := [("error", .s "boom")] }, []) ∧
    (execute_workflow envPlannerBoom "w" none [] false).1.status = .failed ∧
    lookupKey (execute_workflow envPlannerBoom "w" none [] false).1.results
      "error" = some (.s "boom") := by
  have h := C3_exceptions_recorded envPlannerBoom "w" none [] false "boom"
    { name := "w" } [] rfl
  exact ⟨h.1, h.2.1, h.2.2⟩

/-- C7. Sending any sequence of non-critical messages, unexpired at the
receive instant, to one recipient (arrival order given by strictly
increasing `mid` tags) and then receiving them all returns every message,
in non-increasing priority order with messages of equal priority in their
send order (`msgOrder`): the stable resort on each send makes the
send/receive contract deterministic. -/
theorem C7_mailbox_order (msgs : List Msg) (a : String) (now : Int)
    (hrecv : ∀ m ∈ msgs, m.receiver = a)
    (hcrit : ∀ m ∈ msgs, m.priority ≠ 4)
    (hfresh : ∀ m ∈ msgs, is_expired m now = false)
    (harr : msgs.Pairwise fun x y => x.mid < y.mid) :
    List.Perm (receiveAll (sendAll emptyBus msgs) a now msgs.length) msgs ∧
    (receiveAll (sendAll emptyBus msgs) a now msgs.length).Pairwise msgOrder := by
  have hq : (sendAll emptyBus msgs).queues a = sortQueue msgs := by
    rw [sendAll_queues msgs emptyBus a hrecv hcrit]
    have : emptyBus.queues a = [] := rfl
    rw [this]
    rw [foldl_resort_eq_sortQueue msgs [] (by simp)]
    rfl
  have hperm : List.Perm (sortQueue msgs) msgs := sortQueue_perm msgs
  have hfresh2 : ∀ m ∈ sortQueue msgs, is_expired m now = false :=
    fun m hm => hfresh m (hperm.mem_iff.mp hm)
  have hlen : (sortQueue msgs).length = msgs.length := hperm.length_eq
  have hdrain : receiveAll (sendAll emptyBus msgs) a now (sortQueue msgs).length
      = sortQueue msgs :=
    receiveAll_drains (sortQueue msgs) (sendAll emptyBus msgs) a now hq hfresh2
  rw [← hlen, hdrain]
  exact ⟨hperm, sortQueue_pairwise msgs harr⟩

/-- C7 witness: a medium-priority message followed by two high-priority ones
comes back high-before-medium with the high pair in arrival order. -/
theorem C7_witness :
    List.Perm (receiveAll (sendAll emptyBus msgsW) "a" 0 msgsW.length) msgsW ∧
    (receiveAll (sendAll emptyBus msgsW) "a" 0 msgsW.length).Pairwise msgOrder :=
  C7_mailbox_order msgsW "a" 0 (by decide) (by decide) (by decide)
    (by simp [msgsW])

end Imperium
